import Mathlib

/-!
Verification development for the iDRAC IPMI-over-LAN disabling scripts.

The repository has two variants of the same workflow:
  * `disable_ipmi_idrac.py` — the shell (SSH/racadm) variant;
  * `disable_ipmi_idrac_redfish.py` — the HTTP (Redfish) variant.

Each variant is embedded shallowly: every remote interaction is answered by
an explicit environment (oracle), and each operation returns its result
together with the ordered trace of externally visible events it produced
(session creations, remote calls, sleeps).  The definitions mirror the
Python source function by function.
-/

namespace IDrac

/-! ## Substring matching (the Python `in` operator on `str`) -/

/-- Boolean test that `p` is a prefix of `s` (over the character list). -/
def isPrefixOfB : List Char → List Char → Bool
  | [], _ => true
  | _ :: _, [] => false
  | c :: cs, d :: ds => c == d && isPrefixOfB cs ds

/-- Boolean substring containment of `pat` in `s`, the embedding of
Python's `pat in s` on strings (over character lists). -/
def containsSub (pat : List Char) : List Char → Bool
  | [] => isPrefixOfB pat []
  | d :: ds => isPrefixOfB pat (d :: ds) || containsSub pat ds

/-- Python `pat in s` on `String`. -/
def strIn (pat s : String) : Bool := containsSub pat.data s.data

theorem isPrefixOfB_iff (p s : List Char) :
    isPrefixOfB p s = true ↔ ∃ q, s = p ++ q := by
  induction p generalizing s with
  | nil => simp [isPrefixOfB]
  | cons c cs ih =>
    cases s with
    | nil =>
      simp only [isPrefixOfB, List.cons_append]
      constructor
      · intro h; cases h
      · rintro ⟨q, hq⟩; cases hq
    | cons d ds =>
      simp only [isPrefixOfB, Bool.and_eq_true, beq_iff_eq, ih, List.cons_append]
      constructor
      · rintro ⟨rfl, q, rfl⟩; exact ⟨q, rfl⟩
      · rintro ⟨q, hq⟩
        injection hq with h1 h2
        exact ⟨h1.symm, q, h2⟩

theorem containsSub_iff (pat s : List Char) :
    containsSub pat s = true ↔ ∃ p q, s = p ++ pat ++ q := by
  induction s with
  | nil =>
    simp only [containsSub, isPrefixOfB_iff]
    constructor
    · rintro ⟨q, hq⟩
      exact ⟨[], q, by simpa using hq⟩
    · rintro ⟨p, q, hpq⟩
      have h0 : p ++ pat = [] ∧ q = [] := List.append_eq_nil.mp hpq.symm
      have h1 : p = [] ∧ pat = [] := List.append_eq_nil.mp h0.1
      exact ⟨[], by simp [h1.2]⟩
  | cons d ds ih =>
    simp only [containsSub, Bool.or_eq_true, isPrefixOfB_iff, ih]
    constructor
    · rintro (⟨q, hq⟩ | ⟨p, q, rfl⟩)
      · exact ⟨[], q, by simpa using hq⟩
      · exact ⟨d :: p, q, by simp⟩
    · rintro ⟨p, q, hpq⟩
      cases p with
      | nil => exact Or.inl ⟨q, by simpa using hpq⟩
      | cons x xs =>
        injection hpq with h1 h2
        exact Or.inr ⟨xs, q, h2⟩

theorem strIn_iff (pat s : String) :
    strIn pat s = true ↔ ∃ p q, s.data = p ++ pat.data ++ q :=
  containsSub_iff pat.data s.data

/-! ## Shell (SSH) variant — `disable_ipmi_idrac.py`

`execute_ssh_command` either succeeds with captured stdout/stderr or fails
with an error message; the embedding collapses that to a record.  The
environment maps the index of the SSH call made during one `disable_ipmi`
run (0 = status read, 1 = disable write, 2 = verification read) to its
result. -/

structure SSHResult where
  ok : Bool
  output : String
  error : String
deriving DecidableEq

/-- The environment (world) answering the successive SSH calls of one
per-target run. -/
def ShellEnv : Type := Nat → SSHResult

inductive ShellEvent where
  | exec (cmd : String)
  | sleepTenths (n : Nat)
deriving DecidableEq

/-- The status-read command (`check_ipmi_status`). -/
def getCmd : String := "racadm get iDRAC.IPMILan.Enable"

/-- The disable-write command. -/
def setCmd : String := "racadm set iDRAC.IPMILan.Enable 0"

/-- The verification classifier of `disable_ipmi` (shell variant),
line 134 of the source: a substring match of the re-read output against
the two markers. -/
def shellVerifyDisabled (out : String) : Bool :=
  strIn "Enable=Disabled" out || strIn "Enable=0" out

/-- `IDracIPMIDisabler.disable_ipmi` (shell variant).  Returns the
per-target boolean result together with the trace of SSH commands issued
and sleeps performed, in order.  Call 0 is the initial status read
(`check_ipmi_status`); on its failure the function returns `False`.
Otherwise the disable write (call 1) is issued unconditionally; on its
success the function pauses one second and re-reads (call 2), classifying
the output with `shellVerifyDisabled`; a failed re-read still counts as
success. -/
def shellDisableIpmi (env : ShellEnv) : Bool × List ShellEvent :=
  let r0 := env 0
  if r0.ok then
    let r1 := env 1
    if r1.ok then
      let r2 := env 2
      if r2.ok then
        if shellVerifyDisabled r2.output then
          (true, [.exec getCmd, .exec setCmd, .sleepTenths 10, .exec getCmd])
        else
          (false, [.exec getCmd, .exec setCmd, .sleepTenths 10, .exec getCmd])
      else
        (true, [.exec getCmd, .exec setCmd, .sleepTenths 10, .exec getCmd])
    else
      (false, [.exec getCmd, .exec setCmd])
  else
    (false, [.exec getCmd])

/-- `IDracIPMIDisabler.process_hosts` (shell variant): sequentially runs
`disable_ipmi` per host, counting successes and failures, sleeping half a
second between consecutive hosts (`if i < len(hosts)`).  Hosts are
represented by their per-run environments.  Returns
(success_count, fail_count, trace). -/
def shellProcessHosts : List ShellEnv → Nat × Nat × List ShellEvent
  | [] => (0, 0, [])
  | e :: rest =>
    let p := shellDisableIpmi e
    let q := shellProcessHosts rest
    let pacing : List ShellEvent := if rest.isEmpty then [] else [.sleepTenths 5]
    (if p.1 then q.1 + 1 else q.1,
     if p.1 then q.2.1 else q.2.1 + 1,
     p.2 ++ pacing ++ q.2.2)

/-! ## HTTP (Redfish) variant — `disable_ipmi_idrac_redfish.py`

Responses carry an HTTP status, an optionally JSON-parseable body and the
raw text; a transport-level failure (`requests.exceptions.RequestException`:
timeout, connection refused, and also a body that fails JSON parsing where
`response.json()` is called inside the guarded block) is `exn`.  JSON bodies
are modelled by the fields the scripts actually read: the top-level `IPMI`
sub-object, the top-level `Attributes` bag, and the top-level `error`
object of error responses. -/

inductive Scalar where
  | sNone
  | sBool (b : Bool)
  | sInt (n : Int)
  | sStr (s : String)
deriving DecidableEq

/-- A JSON object of scalar values (Python dict with unique keys). -/
def Dict : Type := List (String × Scalar)

instance : DecidableEq Dict := by
  unfold Dict
  infer_instance

/-- Python `d.get(k, None)` followed by use of the value: returns the value
of the first binding of `k`, or `None` when absent. -/
def pyGet (d : Dict) (k : String) : Scalar :=
  match List.find? (fun p => p.1 == k) d with
  | some p => p.2
  | none => .sNone

/-- Python `d.get(k)` distinguishing presence (used for
`error_data['error'].get('message', default)` where the default applies
only to an absent key). -/
def pyGetOpt (d : Dict) (k : String) : Option Scalar :=
  match List.find? (fun p => p.1 == k) d with
  | some p => some p.2
  | none => none

/-- Python truthiness of a scalar (`if not current_status`). -/
def truthy : Scalar → Bool
  | .sNone => false
  | .sBool b => b
  | .sInt n => decide (n ≠ 0)
  | .sStr s => decide (s ≠ "")

/-- Python `str()`/f-string rendering of a scalar. -/
def scalarStr : Scalar → String
  | .sNone => "None"
  | .sBool true => "True"
  | .sBool false => "False"
  | .sInt n => toString n
  | .sStr s => s

structure JsonBody where
  ipmi : Option Dict
  attributes : Option Dict
  error : Option Dict
deriving DecidableEq

inductive HttpResp where
  | resp (status : Nat) (body : Option JsonBody) (text : String)
  | exn
deriving DecidableEq

inductive Event where
  | sessionCreate
  | get (endpoint : String)
  | patchReq (endpoint : String)
  | post (endpoint : String)
  | sleepTenths (n : Nat)
deriving DecidableEq

/-- Rendering of `json.dumps(ipmi_config, indent=2)` for the status message
(whitespace layout abstracted; no claim depends on this string). -/
def dumpsDict (d : Dict) : String :=
  "\x7b" ++ String.intercalate ", "
    (d.map (fun p => "\x22" ++ p.1 ++ "\x22: " ++ scalarStr p.2)) ++ "\x7d"

def npEp1 : String := "/redfish/v1/Managers/iDRAC.Embedded.1/NetworkProtocol"
def npEp2 : String := "/redfish/v1/Managers/System.Embedded.1/NetworkProtocol"
def attrEp1 : String := "/redfish/v1/Managers/iDRAC.Embedded.1/Attributes"
def attrEp2 : String := "/redfish/v1/Managers/System.Embedded.1/Attributes"
def rbEp1 : String := "/redfish/v1/Managers/iDRAC.Embedded.1/Actions/Manager.Reset"
def rbEp2 : String := "/redfish/v1/Managers/System.Embedded.1/Actions/Manager.Reset"

/-- Candidate endpoints of `get_ipmi_status`. -/
def statusEndpoints : List String := [npEp1, npEp2, attrEp1]

/-- Candidate endpoints of `disable_ipmi_networkprotocol`. -/
def npEndpoints : List String := [npEp1, npEp2]

/-- Candidate endpoints of `disable_ipmi_attributes`. -/
def attrEndpoints : List String := [attrEp1, attrEp2]

/-- Candidate endpoints of `reboot_idrac`. -/
def rebootEndpoints : List String := [rbEp1, rbEp2]

/-- The NetworkProtocol-shaped extraction of `get_ipmi_status`
(lines 111-116): `data.get("IPMI", {})`, non-empty (truthy), then
`ProtocolEnabled` present and not `None`. -/
def extractNP (b : JsonBody) : Option Scalar :=
  let ipmi_config := b.ipmi.getD []
  if (ipmi_config : List (String × Scalar)) ≠ [] then
    let enabled := pyGet ipmi_config "ProtocolEnabled"
    if enabled ≠ .sNone then some enabled else none
  else none

/-- The Attributes-shaped search of `get_ipmi_status` and
`disable_ipmi_attributes`: the first attribute whose key contains both
`"IPMI"` and `"Enable"` as substrings. -/
def findIpmiAttr : Dict → Option (String × Scalar)
  | [] => none
  | (k, v) :: rest =>
    if strIn "IPMI" k && strIn "Enable" k then some (k, v)
    else findIpmiAttr rest

/-- Python `value in ["Enabled", "1", 1, True]` (line 124), where Python
equality identifies `True` with `1`. -/
def inEnabledList : Scalar → Bool
  | .sStr s => s == "Enabled" || s == "1"
  | .sInt n => n == 1
  | .sBool b => b
  | .sNone => false

/-- Processing of one candidate endpoint inside the `get_ipmi_status` loop:
`some r` means the loop returns `r`; `none` means the loop falls through to
the next candidate (exception, non-200 status, unparseable body, or a body
with no extractable IPMI setting).  The shape of the extraction is chosen
by a substring test on the endpoint path, exactly as in the source. -/
def statusStep (endpoint : String) (r : HttpResp) :
    Option (Bool × Option Scalar × String) :=
  match r with
  | .exn => none
  | .resp status body _ =>
    if status == 200 then
      match body with
      | none => none
      | some b =>
        if strIn "NetworkProtocol" endpoint then
          match extractNP b with
          | some enabled => some (true, some enabled, dumpsDict (b.ipmi.getD []))
          | none => none
        else if strIn "Attributes" endpoint then
          match findIpmiAttr (b.attributes.getD []) with
          | some (k, v) =>
            some (true, some (.sBool (inEnabledList v)), k ++ ": " ++ scalarStr v)
          | none => none
        else none
    else none

/-- The candidate loop of `get_ipmi_status`; responses are keyed by the
endpoint path.  Exhaustion returns the synthesized failure.  The trace
records the GET issued to every attempted candidate. -/
def getStatusLoop (env : String → HttpResp) :
    List String → (Bool × Option Scalar × String) × List Event
  | [] => ((false, none, "Could not find IPMI settings endpoint"), [])
  | e :: rest =>
    match statusStep e (env e) with
    | some res => (res, [.get e])
    | none =>
      let p := getStatusLoop env rest
      (p.1, .get e :: p.2)

/-- `IDracIPMIDisabler.get_ipmi_status`: creates a fresh session, then runs
the candidate loop. -/
def get_ipmi_status (env : String → HttpResp) :
    (Bool × Option Scalar × String) × List Event :=
  let p := getStatusLoop env statusEndpoints
  (p.1, .sessionCreate :: p.2)

/-- The `"HTTP {status}"` error message construction shared by the two
apply helpers (lines 177-183 and 250-256). -/
def errorDetail (status : Nat) (body : Option JsonBody) (text : String) : String :=
  let base := "HTTP " ++ toString status
  match body with
  | some b =>
    match b.error with
    | some ed =>
      base ++ ": " ++ scalarStr ((pyGetOpt ed "message").getD (.sStr (text.take 200)))
    | none => base
  | none => base ++ ": " ++ text.take 200

/-- The candidate loop of `disable_ipmi_networkprotocol`: a 2xx PATCH
response returns success, 404 advances to the next candidate, any other
status returns failure, and a transport exception advances to the next
candidate. -/
def npLoop (env : String → HttpResp) : List String → (Bool × String) × List Event
  | [] => ((false, "NetworkProtocol endpoint not available"), [])
  | e :: rest =>
    match env e with
    | .exn =>
      let p := npLoop env rest
      (p.1, .patchReq e :: p.2)
    | .resp status body text =>
      if status == 200 || status == 204 then
        ((true, "IPMI disabled via NetworkProtocol endpoint"), [.patchReq e])
      else if status == 404 then
        let p := npLoop env rest
        (p.1, .patchReq e :: p.2)
      else
        ((false, errorDetail status body text), [.patchReq e])

/-- `IDracIPMIDisabler.disable_ipmi_networkprotocol`. -/
def disable_ipmi_networkprotocol (env : String → HttpResp) :
    (Bool × String) × List Event :=
  let p := npLoop env npEndpoints
  (p.1, .sessionCreate :: p.2)

/-- The candidate loop of `disable_ipmi_attributes`: per candidate, a GET
locates the IPMI attribute key; when found, a PATCH sets it to
`"Disabled"` — a 2xx PATCH returns success and any other PATCH status
returns failure (no 404 fallback on the PATCH); a failed GET, an
unparseable body, a missing key, or a transport exception on either call
advances to the next candidate. -/
def attrLoop (genv penv : String → HttpResp) :
    List String → (Bool × String) × List Event
  | [] => ((false, "Attributes endpoint not available"), [])
  | e :: rest =>
    match genv e with
    | .exn =>
      let p := attrLoop genv penv rest
      (p.1, .get e :: p.2)
    | .resp status body _ =>
      if status == 200 then
        match body with
        | none =>
          let p := attrLoop genv penv rest
          (p.1, .get e :: p.2)
        | some b =>
          match findIpmiAttr (b.attributes.getD []) with
          | some (k, _) =>
            match penv e with
            | .exn =>
              let p := attrLoop genv penv rest
              (p.1, .get e :: .patchReq e :: p.2)
            | .resp st2 body2 text2 =>
              if st2 == 200 || st2 == 204 then
                ((true, "IPMI disabled via Attributes endpoint (" ++ k ++ ")"),
                 [.get e, .patchReq e])
              else
                ((false, errorDetail st2 body2 text2), [.get e, .patchReq e])
          | none =>
            let p := attrLoop genv penv rest
            (p.1, .get e :: p.2)
      else
        let p := attrLoop genv penv rest
        (p.1, .get e :: p.2)

/-- `IDracIPMIDisabler.disable_ipmi_attributes`. -/
def disable_ipmi_attributes (genv penv : String → HttpResp) :
    (Bool × String) × List Event :=
  let p := attrLoop genv penv attrEndpoints
  (p.1, .sessionCreate :: p.2)

/-- The candidate loop of `reboot_idrac`: a 2xx POST returns success, 404
advances, any other status returns failure, a transport exception
advances. -/
def rebootLoop (env : String → HttpResp) : List String → Bool × List Event
  | [] => (false, [])
  | e :: rest =>
    match env e with
    | .exn =>
      let p := rebootLoop env rest
      (p.1, .post e :: p.2)
    | .resp status _ _ =>
      if status == 200 || status == 204 then (true, [.post e])
      else if status == 404 then
        let p := rebootLoop env rest
        (p.1, .post e :: p.2)
      else (false, [.post e])

/-- `IDracIPMIDisabler.reboot_idrac`. -/
def reboot_idrac (env : String → HttpResp) : Bool × List Event :=
  let p := rebootLoop env rebootEndpoints
  (p.1, .sessionCreate :: p.2)

/-- The environment answering the HTTP calls of one per-target Redfish
run, one oracle per call site: the initial status read, the
NetworkProtocol PATCH, the Attributes GET and PATCH, the verification
re-read, and the reboot POST. -/
structure Env where
  read1 : String → HttpResp
  np : String → HttpResp
  attrGet : String → HttpResp
  attrPatch : String → HttpResp
  read2 : String → HttpResp
  reboot : String → HttpResp

/-- The combined apply step of the Redfish `disable_ipmi`: the
NetworkProtocol attempt, falling back to the Attributes attempt. -/
def applyOk (env : Env) : Bool :=
  (disable_ipmi_networkprotocol env.np).1.1 ||
    (disable_ipmi_attributes env.attrGet env.attrPatch).1.1

/-- The events emitted by the apply step of the Redfish `disable_ipmi`:
the NetworkProtocol attempt alone when it succeeds, otherwise followed by
the Attributes fallback. -/
def applyTrace (env : Env) : List Event :=
  if (disable_ipmi_networkprotocol env.np).1.1 then
    (disable_ipmi_networkprotocol env.np).2
  else
    (disable_ipmi_networkprotocol env.np).2 ++
      (disable_ipmi_attributes env.attrGet env.attrPatch).2

/-- `IDracIPMIDisabler.disable_ipmi` (Redfish variant, lines 325-415):
read status; on read failure return `False`; if the status value is falsy
return `True` (already disabled); otherwise apply (NetworkProtocol first,
Attributes as fallback); on apply failure return `False`; on apply success
sleep two seconds, re-read, and in each of the three verification outcomes
(Confirmed / Unconfirmed / VerifyUnavailable) optionally reboot when
`reboot_after` is set, then return `True` regardless of the reboot
result. -/
def disable_ipmi (env : Env) (reboot_after : Bool) : Bool × List Event :=
  let s := get_ipmi_status env.read1
  if s.1.1 then
    if truthy (s.1.2.1.getD .sNone) then
      let a1 := disable_ipmi_networkprotocol env.np
      let ap : Bool × List Event :=
        if a1.1.1 then (true, a1.2)
        else
          let a2 := disable_ipmi_attributes env.attrGet env.attrPatch
          (a2.1.1, a1.2 ++ a2.2)
      if ap.1 then
        let v := get_ipmi_status env.read2
        let ev2 := s.2 ++ ap.2 ++ [Event.sleepTenths 20] ++ v.2
        if v.1.1 then
          if truthy (v.1.2.1.getD .sNone) then
            -- Unconfirmed: still enabled; warn, optionally reboot, succeed
            if reboot_after then (true, ev2 ++ (reboot_idrac env.reboot).2)
            else (true, ev2)
          else
            -- Confirmed: verified disabled; optionally reboot, succeed
            if reboot_after then (true, ev2 ++ (reboot_idrac env.reboot).2)
            else (true, ev2)
        else
          -- VerifyUnavailable: re-read failed; optionally reboot, succeed
          if reboot_after then (true, ev2 ++ (reboot_idrac env.reboot).2)
          else (true, ev2)
      else (false, s.2 ++ ap.2)
    else (true, s.2)
  else (false, s.2)

/-- `IDracIPMIDisabler.process_hosts` (Redfish variant): sequentially runs
`disable_ipmi` per host, counting successes and failures; no inter-target
delay.  Returns (success_count, fail_count, trace). -/
def rfProcessHosts (reboot_after : Bool) : List Env → Nat × Nat × List Event
  | [] => (0, 0, [])
  | e :: rest =>
    let p := disable_ipmi e reboot_after
    let q := rfProcessHosts reboot_after rest
    (if p.1 then q.1 + 1 else q.1,
     if p.1 then q.2.1 else q.2.1 + 1,
     p.2 ++ q.2.2)

/-! ## Concrete environments used to instantiate the theorems -/

/-- A Bool-valued test for sleep events in a trace. -/
def isSleepEvent : Event → Bool
  | .sleepTenths _ => true
  | _ => false

/-- Shell run in which every SSH call succeeds and every read reports the
protocol already disabled. -/
def c1shellEnv : ShellEnv := fun _ =>
  ⟨true, "iDRAC.IPMILan.Enable=Disabled", ""⟩

/-- Shell run in which every SSH call succeeds but every read reports the
protocol still enabled. -/
def c2shellEnv : ShellEnv := fun _ =>
  ⟨true, "iDRAC.IPMILan.Enable=Enabled", ""⟩

/-- Shell run in which the read and write succeed but the verification
read fails. -/
def shellVerifyFailEnv : ShellEnv := fun n =>
  if n = 2 then ⟨false, "", "connection reset"⟩ else ⟨true, "", ""⟩

/-- Shell run whose verification output carries the exact-case marker. -/
def c8envExact : ShellEnv := fun n =>
  if n = 2 then ⟨true, "iDRAC.IPMILan.Enable=Disabled", ""⟩ else ⟨true, "", ""⟩

/-- Shell run whose verification output is the upper-case variant of the
output of `c8envExact`. -/
def c8envUpper : ShellEnv := fun n =>
  if n = 2 then ⟨true, "IDRAC.IPMILAN.ENABLE=DISABLED", ""⟩ else ⟨true, "", ""⟩

/-- A NetworkProtocol body reporting IPMI enabled. -/
def bodyEnabled : JsonBody := ⟨some [("ProtocolEnabled", .sBool true)], none, none⟩

/-- A NetworkProtocol body reporting IPMI disabled. -/
def bodyDisabled : JsonBody := ⟨some [("ProtocolEnabled", .sBool false)], none, none⟩

/-- A parseable body carrying no extractable IPMI setting: the IPMI
sub-object is empty (falsy) and the attribute bag has no IPMI key. -/
def bodyEmpty : JsonBody := ⟨some [], some [], none⟩

/-- Redfish run where the first read shows IPMI enabled, the first
NetworkProtocol PATCH is accepted, and the verification re-read shows IPMI
disabled (Confirmed); the reboot endpoint accepts. -/
def rfFullRunEnv : Env where
  read1 := fun _ => .resp 200 (some bodyEnabled) ""
  np := fun _ => .resp 200 none ""
  attrGet := fun _ => .exn
  attrPatch := fun _ => .exn
  read2 := fun _ => .resp 200 (some bodyDisabled) ""
  reboot := fun _ => .resp 200 none ""

/-- Redfish run whose initial read already shows IPMI disabled. -/
def rfAlreadyDisabledEnv : Env where
  read1 := fun _ => .resp 200 (some bodyDisabled) ""
  np := fun _ => .exn
  attrGet := fun _ => .exn
  attrPatch := fun _ => .exn
  read2 := fun _ => .exn
  reboot := fun _ => .exn

/-- Redfish run whose every read fails with a transport exception. -/
def rfNoSleepEnv : Env where
  read1 := fun _ => .exn
  np := fun _ => .exn
  attrGet := fun _ => .exn
  attrPatch := fun _ => .exn
  read2 := fun _ => .exn
  reboot := fun _ => .exn

/-- A NetworkProtocol PATCH oracle whose first candidate fails with a
transport exception and whose second candidate accepts. -/
def c4np : String → HttpResp := fun e =>
  if e = npEp1 then .exn else .resp 200 none ""

/-! ## Trace shape lemmas -/

theorem getStatusLoop_mem (env : String → HttpResp) (l : List String) (ev : Event)
    (h : ev ∈ (getStatusLoop env l).2) : ∃ e, ev = .get e := by
  induction l with
  | nil => simp [getStatusLoop] at h
  | cons e rest ih =>
    rw [getStatusLoop] at h
    cases hs : statusStep e (env e) with
    | some res =>
      rw [hs] at h
      simp only [List.mem_singleton] at h
      exact ⟨e, h⟩
    | none =>
      rw [hs] at h
      simp only [List.mem_cons] at h
      rcases h with rfl | h
      · exact ⟨e, rfl⟩
      · exact ih h

theorem get_ipmi_status_mem (env : String → HttpResp) (ev : Event)
    (h : ev ∈ (get_ipmi_status env).2) :
    ev = .sessionCreate ∨ ∃ e, ev = .get e := by
  rw [get_ipmi_status] at h
  simp only [List.mem_cons] at h
  rcases h with rfl | h
  · exact Or.inl rfl
  · exact Or.inr (getStatusLoop_mem env _ ev h)

theorem npLoop_mem (env : String → HttpResp) (l : List String) (ev : Event)
    (h : ev ∈ (npLoop env l).2) : ∃ e, ev = .patchReq e := by
  induction l with
  | nil => simp [npLoop] at h
  | cons e rest ih =>
    rw [npLoop] at h
    cases hr : env e with
    | exn =>
      rw [hr] at h
      simp only [List.mem_cons] at h
      rcases h with rfl | h
      · exact ⟨e, rfl⟩
      · exact ih h
    | resp status body text =>
      rw [hr] at h
      dsimp only [] at h
      by_cases h2 : (status == 200 || status == 204) = true
      · rw [if_pos h2] at h
        simp only [List.mem_singleton] at h
        exact ⟨e, h⟩
      · rw [if_neg h2] at h
        by_cases h4 : (status == 404) = true
        · rw [if_pos h4] at h
          simp only [List.mem_cons] at h
          rcases h with rfl | h
          · exact ⟨e, rfl⟩
          · exact ih h
        · rw [if_neg h4] at h
          simp only [List.mem_singleton] at h
          exact ⟨e, h⟩

theorem disable_ipmi_networkprotocol_mem (env : String → HttpResp) (ev : Event)
    (h : ev ∈ (disable_ipmi_networkprotocol env).2) :
    ev = .sessionCreate ∨ ∃ e, ev = .patchReq e := by
  rw [disable_ipmi_networkprotocol] at h
  simp only [List.mem_cons] at h
  rcases h with rfl | h
  · exact Or.inl rfl
  · exact Or.inr (npLoop_mem env _ ev h)

theorem attrLoop_mem (genv penv : String → HttpResp) (l : List String) (ev : Event)
    (h : ev ∈ (attrLoop genv penv l).2) :
    (∃ e, ev = .get e) ∨ ∃ e, ev = .patchReq e := by
  induction l with
  | nil => simp [attrLoop] at h
  | cons e rest ih =>
    rw [attrLoop] at h
    cases hr : genv e with
    | exn =>
      rw [hr] at h
      simp only [List.mem_cons] at h
      rcases h with rfl | h
      · exact Or.inl ⟨e, rfl⟩
      · exact ih h
    | resp status body text =>
      rw [hr] at h
      dsimp only [] at h
      by_cases h2 : (status == 200) = true
      · rw [if_pos h2] at h
        cases body with
        | none =>
          simp only [List.mem_cons] at h
          rcases h with rfl | h
          · exact Or.inl ⟨e, rfl⟩
          · exact ih h
        | some b =>
          dsimp only [] at h
          cases hf : findIpmiAttr (b.attributes.getD []) with
          | none =>
            rw [hf] at h
            simp only [List.mem_cons] at h
            rcases h with rfl | h
            · exact Or.inl ⟨e, rfl⟩
            · exact ih h
          | some kv =>
            rw [hf] at h
            obtain ⟨k, v⟩ := kv
            dsimp only [] at h
            cases hp : penv e with
            | exn =>
              rw [hp] at h
              simp only [List.mem_cons] at h
              rcases h with rfl | rfl | h
              · exact Or.inl ⟨e, rfl⟩
              · exact Or.inr ⟨e, rfl⟩
              · exact ih h
            | resp st2 body2 text2 =>
              rw [hp] at h
              dsimp only [] at h
              by_cases h5 : (st2 == 200 || st2 == 204) = true
              · rw [if_pos h5] at h
                simp only [List.mem_cons, List.not_mem_nil, or_false] at h
                rcases h with rfl | rfl
                · exact Or.inl ⟨e, rfl⟩
                · exact Or.inr ⟨e, rfl⟩
              · rw [if_neg h5] at h
                simp only [List.mem_cons, List.not_mem_nil, or_false] at h
                rcases h with rfl | rfl
                · exact Or.inl ⟨e, rfl⟩
                · exact Or.inr ⟨e, rfl⟩
      · rw [if_neg h2] at h
        simp only [List.mem_cons] at h
        rcases h with rfl | h
        · exact Or.inl ⟨e, rfl⟩
        · exact ih h

theorem disable_ipmi_attributes_mem (genv penv : String → HttpResp) (ev : Event)
    (h : ev ∈ (disable_ipmi_attributes genv penv).2) :
    ev = .sessionCreate ∨ (∃ e, ev = .get e) ∨ ∃ e, ev = .patchReq e := by
  rw [disable_ipmi_attributes] at h
  simp only [List.mem_cons] at h
  rcases h with rfl | h
  · exact Or.inl rfl
  · exact Or.inr (attrLoop_mem genv penv _ ev h)

theorem rebootLoop_mem (env : String → HttpResp) (l : List String) (ev : Event)
    (h : ev ∈ (rebootLoop env l).2) : ∃ e, ev = .post e := by
  induction l with
  | nil => simp [rebootLoop] at h
  | cons e rest ih =>
    rw [rebootLoop] at h
    cases hr : env e with
    | exn =>
      rw [hr] at h
      simp only [List.mem_cons] at h
      rcases h with rfl | h
      · exact ⟨e, rfl⟩
      · exact ih h
    | resp status body text =>
      rw [hr] at h
      dsimp only [] at h
      by_cases h2 : (status == 200 || status == 204) = true
      · rw [if_pos h2] at h
        simp only [List.mem_singleton] at h
        exact ⟨e, h⟩
      · rw [if_neg h2] at h
        by_cases h4 : (status == 404) = true
        · rw [if_pos h4] at h
          simp only [List.mem_cons] at h
          rcases h with rfl | h
          · exact ⟨e, rfl⟩
          · exact ih h
        · rw [if_neg h4] at h
          simp only [List.mem_singleton] at h
          exact ⟨e, h⟩

theorem reboot_idrac_mem (env : String → HttpResp) (ev : Event)
    (h : ev ∈ (reboot_idrac env).2) :
    ev = .sessionCreate ∨ ∃ e, ev = .post e := by
  rw [reboot_idrac] at h
  simp only [List.mem_cons] at h
  rcases h with rfl | h
  · exact Or.inl rfl
  · exact Or.inr (rebootLoop_mem env _ ev h)

/-- Every candidate loop attempts its first candidate: `reboot_idrac`
always issues a POST to the first reset endpoint. -/
theorem rebootLoop_head_mem (env : String → HttpResp) (e : String) (rest : List String) :
    Event.post e ∈ (rebootLoop env (e :: rest)).2 := by
  rw [rebootLoop]
  cases env e with
  | exn => simp
  | resp status body text =>
    dsimp only []
    by_cases h2 : (status == 200 || status == 204) = true
    · rw [if_pos h2]; simp
    · rw [if_neg h2]
      by_cases h4 : (status == 404) = true
      · rw [if_pos h4]; simp
      · rw [if_neg h4]; simp

theorem npLoop_head_mem (env : String → HttpResp) (e : String) (rest : List String) :
    Event.patchReq e ∈ (npLoop env (e :: rest)).2 := by
  rw [npLoop]
  cases env e with
  | exn => simp
  | resp status body text =>
    dsimp only []
    by_cases h2 : (status == 200 || status == 204) = true
    · rw [if_pos h2]; simp
    · rw [if_neg h2]
      by_cases h4 : (status == 404) = true
      · rw [if_pos h4]; simp
      · rw [if_neg h4]; simp

theorem getStatusLoop_head_mem (env : String → HttpResp) (e : String) (rest : List String) :
    Event.get e ∈ (getStatusLoop env (e :: rest)).2 := by
  rw [getStatusLoop]
  cases statusStep e (env e) with
  | some res => simp
  | none => simp

/-! ## Count corollaries -/

theorem count5_status (env : String → HttpResp) :
    (get_ipmi_status env).2.count (Event.sleepTenths 5) = 0 :=
  List.count_eq_zero.mpr (fun h => by
    rcases get_ipmi_status_mem env _ h with he | ⟨e, he⟩ <;> exact Event.noConfusion he)

theorem count5_np (env : String → HttpResp) :
    (disable_ipmi_networkprotocol env).2.count (Event.sleepTenths 5) = 0 :=
  List.count_eq_zero.mpr (fun h => by
    rcases disable_ipmi_networkprotocol_mem env _ h with he | ⟨e, he⟩ <;>
      exact Event.noConfusion he)

theorem count5_attr (genv penv : String → HttpResp) :
    (disable_ipmi_attributes genv penv).2.count (Event.sleepTenths 5) = 0 :=
  List.count_eq_zero.mpr (fun h => by
    rcases disable_ipmi_attributes_mem genv penv _ h with he | ⟨e, he⟩ | ⟨e, he⟩ <;>
      exact Event.noConfusion he)

theorem count5_reboot (env : String → HttpResp) :
    (reboot_idrac env).2.count (Event.sleepTenths 5) = 0 :=
  List.count_eq_zero.mpr (fun h => by
    rcases reboot_idrac_mem env _ h with he | ⟨e, he⟩ <;> exact Event.noConfusion he)

theorem count5_sleep20 :
    ([Event.sleepTenths 20] : List Event).count (Event.sleepTenths 5) = 0 := by decide

theorem count5_cons20 (l : List Event) :
    (Event.sleepTenths 20 :: l).count (Event.sleepTenths 5) =
      l.count (Event.sleepTenths 5) := by
  rw [List.count_cons]
  simp

theorem sessCount_status (env : String → HttpResp) :
    (get_ipmi_status env).2.count Event.sessionCreate = 1 := by
  rw [get_ipmi_status]
  dsimp only []
  rw [List.count_cons_self]
  rw [List.count_eq_zero.mpr (fun h => by
    rcases getStatusLoop_mem env _ _ h with ⟨e, he⟩; exact Event.noConfusion he)]

theorem sessCount_np (env : String → HttpResp) :
    (disable_ipmi_networkprotocol env).2.count Event.sessionCreate = 1 := by
  rw [disable_ipmi_networkprotocol]
  dsimp only []
  rw [List.count_cons_self]
  rw [List.count_eq_zero.mpr (fun h => by
    rcases npLoop_mem env _ _ h with ⟨e, he⟩; exact Event.noConfusion he)]

theorem sessCount_attr (genv penv : String → HttpResp) :
    (disable_ipmi_attributes genv penv).2.count Event.sessionCreate = 1 := by
  rw [disable_ipmi_attributes]
  dsimp only []
  rw [List.count_cons_self]
  rw [List.count_eq_zero.mpr (fun h => by
    rcases attrLoop_mem genv penv _ _ h with ⟨e, he⟩ | ⟨e, he⟩ <;>
      exact Event.noConfusion he)]

theorem sessCount_reboot (env : String → HttpResp) :
    (reboot_idrac env).2.count Event.sessionCreate = 1 := by
  rw [reboot_idrac]
  dsimp only []
  rw [List.count_cons_self]
  rw [List.count_eq_zero.mpr (fun h => by
    rcases rebootLoop_mem env _ _ h with ⟨e, he⟩; exact Event.noConfusion he)]

/-- The redfish per-target run never performs the half-second inter-target
pause anywhere in its trace (its only sleep is the two-second
verification wait). -/
theorem disable_ipmi_count5 (env : Env) (rb : Bool) :
    (disable_ipmi env rb).2.count (Event.sleepTenths 5) = 0 := by
  rw [disable_ipmi]
  dsimp only []
  repeat' split
  all_goals
    simp_all [List.count_append, count5_cons20, count5_status, count5_np,
      count5_attr, count5_reboot]

/-- The three possible SSH traces of the shell per-target run. -/
theorem shellDisableIpmi_trace (e : ShellEnv) :
    (shellDisableIpmi e).2 = [.exec getCmd] ∨
    (shellDisableIpmi e).2 = [.exec getCmd, .exec setCmd] ∨
    (shellDisableIpmi e).2 =
      [.exec getCmd, .exec setCmd, .sleepTenths 10, .exec getCmd] := by
  rw [shellDisableIpmi]
  dsimp only []
  split
  · split
    · split
      · split <;> simp
      · simp
    · simp
  · simp

theorem count5_shell (e : ShellEnv) :
    (shellDisableIpmi e).2.count (ShellEvent.sleepTenths 5) = 0 := by
  rcases shellDisableIpmi_trace e with h | h | h <;> rw [h] <;> decide

theorem bool_count_split (l : List Bool) : l.count true + l.count false = l.length := by
  induction l with
  | nil => rfl
  | cons b bs ih => cases b <;> simp [List.count_cons] <;> omega

theorem shellProcessHosts_counts (envs : List ShellEnv) :
    (shellProcessHosts envs).1 =
      (envs.map fun e => (shellDisableIpmi e).1).count true ∧
    (shellProcessHosts envs).2.1 =
      (envs.map fun e => (shellDisableIpmi e).1).count false := by
  induction envs with
  | nil => simp [shellProcessHosts]
  | cons e rest ih =>
    rw [shellProcessHosts]
    dsimp only []
    rcases h : (shellDisableIpmi e).1 <;>
      simp [h, List.count_cons, ih.1, ih.2]

theorem rfProcessHosts_counts (rb : Bool) (envs : List Env) :
    (rfProcessHosts rb envs).1 =
      (envs.map fun e => (disable_ipmi e rb).1).count true ∧
    (rfProcessHosts rb envs).2.1 =
      (envs.map fun e => (disable_ipmi e rb).1).count false := by
  induction envs with
  | nil => simp [rfProcessHosts]
  | cons e rest ih =>
    rw [rfProcessHosts]
    dsimp only []
    rcases h : (disable_ipmi e rb).1 <;>
      simp [h, List.count_cons, ih.1, ih.2]

/-! ## The claims -/

/-- C5: every batch of `n` targets is processed to the end — no per-target
failure aborts the run — and the success and failure counts returned by
`process_hosts` sum to exactly `n`; the counts are exactly the number of
`true`/`false` entries of the sequence of per-target results taken in
target input order, in both the shell and the HTTP variant. -/
theorem c5_batch_totals (shEnvs : List ShellEnv) (rfEnvs : List Env) (rb : Bool) :
    ((shellProcessHosts shEnvs).1 + (shellProcessHosts shEnvs).2.1 = shEnvs.length ∧
      (shellProcessHosts shEnvs).1 =
        (shEnvs.map fun e => (shellDisableIpmi e).1).count true ∧
      (shellProcessHosts shEnvs).2.1 =
        (shEnvs.map fun e => (shellDisableIpmi e).1).count false) ∧
    ((rfProcessHosts rb rfEnvs).1 + (rfProcessHosts rb rfEnvs).2.1 = rfEnvs.length ∧
      (rfProcessHosts rb rfEnvs).1 =
        (rfEnvs.map fun e => (disable_ipmi e rb).1).count true ∧
      (rfProcessHosts rb rfEnvs).2.1 =
        (rfEnvs.map fun e => (disable_ipmi e rb).1).count false) := by
  obtain ⟨hs1, hs2⟩ := shellProcessHosts_counts shEnvs
  obtain ⟨hr1, hr2⟩ := rfProcessHosts_counts rb rfEnvs
  refine ⟨⟨?_, hs1, hs2⟩, ⟨?_, hr1, hr2⟩⟩
  · rw [hs1, hs2, bool_count_split, List.length_map]
  · rw [hr1, hr2, bool_count_split, List.length_map]

/-- C7 counterexample: a two-target batch of the HTTP variant whose whole
trace contains no sleep event at all — the HTTP `process_hosts` has no
inter-target pacing delay, contradicting the claim that both variants
insert one. -/
theorem c7_counterexample :
    ([rfNoSleepEnv, rfNoSleepEnv] : List Env).length = 2 ∧
    (rfProcessHosts false [rfNoSleepEnv, rfNoSleepEnv]).2.2.countP isSleepEvent = 0 := by
  constructor
  · rfl
  · decide

/-- C7 amended: only the shell variant paces the batch — its
`process_hosts` sleeps half a second after every target except the last
(`n - 1` pacing delays for `n` targets), while the trace of the HTTP
variant's `process_hosts` never contains a pacing delay. -/
theorem c7_pacing_only_shell (shEnvs : List ShellEnv) (rfEnvs : List Env) (rb : Bool) :
    (shellProcessHosts shEnvs).2.2.count (ShellEvent.sleepTenths 5) =
      shEnvs.length - 1 ∧
    (rfProcessHosts rb rfEnvs).2.2.count (Event.sleepTenths 5) = 0 := by
  constructor
  · induction shEnvs with
    | nil => rfl
    | cons e rest ih =>
      rw [shellProcessHosts]
      dsimp only []
      rw [List.count_append, List.count_append, count5_shell]
      cases rest with
      | nil => simp [shellProcessHosts]
      | cons r rs =>
        have hp : (if (r :: rs).isEmpty = true then ([] : List ShellEvent)
            else [ShellEvent.sleepTenths 5]) = [ShellEvent.sleepTenths 5] := by simp
        have hc : ([ShellEvent.sleepTenths 5] : List ShellEvent).count
            (ShellEvent.sleepTenths 5) = 1 := by decide
        rw [hp, hc, ih]
        simp only [List.length_cons]
        omega
  · induction rfEnvs with
    | nil => rfl
    | cons e rest ih =>
      rw [rfProcessHosts]
      dsimp only []
      rw [List.count_append, disable_ipmi_count5, ih]

theorem applyTrace_mem (env : Env) (ev : Event) (h : ev ∈ applyTrace env) :
    ev = .sessionCreate ∨ (∃ e, ev = .get e) ∨ ∃ e, ev = .patchReq e := by
  rw [applyTrace] at h
  split at h
  · rcases disable_ipmi_networkprotocol_mem env.np ev h with he | ⟨e, he⟩
    · exact Or.inl he
    · exact Or.inr (Or.inr ⟨e, he⟩)
  · rw [List.mem_append] at h
    rcases h with h | h
    · rcases disable_ipmi_networkprotocol_mem env.np ev h with he | ⟨e, he⟩
      · exact Or.inl he
      · exact Or.inr (Or.inr ⟨e, he⟩)
    · exact disable_ipmi_attributes_mem env.attrGet env.attrPatch ev h

/-- When the whole change-verify path is taken (read succeeded and showed
enabled, apply succeeded, escalation disabled), the run returns `True`
with the trace of the read, the apply, the fixed verification wait and the
re-read. -/
theorem disable_ipmi_run_eq_false (env : Env)
    (h1 : (get_ipmi_status env.read1).1.1 = true)
    (h2 : truthy ((get_ipmi_status env.read1).1.2.1.getD .sNone) = true)
    (h3 : applyOk env = true) :
    disable_ipmi env false =
      (true, (get_ipmi_status env.read1).2 ++ applyTrace env ++
        [Event.sleepTenths 20] ++ (get_ipmi_status env.read2).2) := by
  rw [disable_ipmi]
  dsimp only []
  rw [h1, h2]
  by_cases hnp : (disable_ipmi_networkprotocol env.np).1.1 = true
  · simp [hnp, applyTrace]
  · have hattr : (disable_ipmi_attributes env.attrGet env.attrPatch).1.1 = true := by
      unfold applyOk at h3
      rw [Bool.not_eq_true] at hnp
      rw [hnp] at h3
      simpa using h3
    simp [hnp, hattr, applyTrace]

/-- As `disable_ipmi_run_eq_false`, but with escalation enabled: an
escalation attempt is appended to the trace in every verification
outcome, and the result stays `True`. -/
theorem disable_ipmi_run_eq_true (env : Env)
    (h1 : (get_ipmi_status env.read1).1.1 = true)
    (h2 : truthy ((get_ipmi_status env.read1).1.2.1.getD .sNone) = true)
    (h3 : applyOk env = true) :
    disable_ipmi env true =
      (true, (get_ipmi_status env.read1).2 ++ applyTrace env ++
        [Event.sleepTenths 20] ++ (get_ipmi_status env.read2).2 ++
        (reboot_idrac env.reboot).2) := by
  rw [disable_ipmi]
  dsimp only []
  rw [h1, h2]
  by_cases hnp : (disable_ipmi_networkprotocol env.np).1.1 = true
  · simp [hnp, applyTrace]
  · have hattr : (disable_ipmi_attributes env.attrGet env.attrPatch).1.1 = true := by
      unfold applyOk at h3
      rw [Bool.not_eq_true] at hnp
      rw [hnp] at h3
      simpa using h3
    simp [hnp, hattr, applyTrace]

/-- C1 counterexample: a shell run whose initial status read succeeds and
already shows the protocol disabled (by the script's own marker test),
yet whose trace contains the disable-write command — the shell variant
has no idempotent short-circuit and always issues the apply step. -/
theorem c1_counterexample :
    (c1shellEnv 0).ok = true ∧
    shellVerifyDisabled (c1shellEnv 0).output = true ∧
    ShellEvent.exec setCmd ∈ (shellDisableIpmi c1shellEnv).2 := by decide

/-- C1 amended: only the HTTP variant short-circuits — when the initial
status read succeeds and reports the protocol disabled, the Redfish
`disable_ipmi` returns `True` having issued nothing beyond the session
creation and the status GETs (no apply, no escalation); the shell variant
issues the disable-write unconditionally after any successful initial
read. -/
theorem c1_short_circuit (env : Env) (rb : Bool) (es : ShellEnv)
    (h1 : (get_ipmi_status env.read1).1.1 = true)
    (h2 : truthy ((get_ipmi_status env.read1).1.2.1.getD .sNone) = false)
    (hs : (es 0).ok = true) :
    (disable_ipmi env rb).1 = true ∧
    (∀ ev ∈ (disable_ipmi env rb).2, ev = Event.sessionCreate ∨ ∃ e, ev = Event.get e) ∧
    ShellEvent.exec setCmd ∈ (shellDisableIpmi es).2 := by
  have hd : disable_ipmi env rb = (true, (get_ipmi_status env.read1).2) := by
    rw [disable_ipmi]
    dsimp only []
    rw [h1, h2]
    simp
  refine ⟨by rw [hd], ?_, ?_⟩
  · rw [hd]
    intro ev hm
    exact get_ipmi_status_mem env.read1 ev hm
  · rw [shellDisableIpmi]
    dsimp only []
    rw [hs]
    repeat' split
    all_goals simp_all

theorem c1_short_circuit_witness :
    (disable_ipmi rfAlreadyDisabledEnv false).1 = true ∧
    (∀ ev ∈ (disable_ipmi rfAlreadyDisabledEnv false).2,
      ev = Event.sessionCreate ∨ ∃ e, ev = Event.get e) ∧
    ShellEvent.exec setCmd ∈ (shellDisableIpmi c1shellEnv).2 :=
  c1_short_circuit rfAlreadyDisabledEnv false c1shellEnv (by decide) (by decide)
    (by decide)

/-- C2 counterexample: a shell run whose apply step succeeds and whose
verification read succeeds but still shows the protocol enabled
(Unconfirmed) returns `False`, contradicting the claim that the target is
counted Succeeded in that case in both variants. -/
theorem c2_counterexample :
    (c2shellEnv 1).ok = true ∧ (c2shellEnv 2).ok = true ∧
    shellVerifyDisabled (c2shellEnv 2).output = false ∧
    (shellDisableIpmi c2shellEnv).1 = false := by decide

/-- C2 amended: in the HTTP variant an accepted apply yields a Succeeded
target in every verification outcome (Unconfirmed and VerifyUnavailable
included); in the shell variant an accepted apply yields Succeeded when
the verification read fails (VerifyUnavailable), but a verification read
that still shows the protocol enabled yields Failed. -/
theorem c2_apply_accepted (env : Env) (rb : Bool) (es : ShellEnv)
    (h1 : (get_ipmi_status env.read1).1.1 = true)
    (h2 : truthy ((get_ipmi_status env.read1).1.2.1.getD .sNone) = true)
    (h3 : applyOk env = true)
    (hs0 : (es 0).ok = true) (hs1 : (es 1).ok = true) (hs2 : (es 2).ok = false) :
    (disable_ipmi env rb).1 = true ∧ (shellDisableIpmi es).1 = true := by
  constructor
  · cases rb
    · rw [disable_ipmi_run_eq_false env h1 h2 h3]
    · rw [disable_ipmi_run_eq_true env h1 h2 h3]
  · rw [shellDisableIpmi]
    dsimp only []
    rw [hs0, hs1, hs2]
    simp

theorem c2_apply_accepted_witness :
    (disable_ipmi rfFullRunEnv false).1 = true ∧
    (shellDisableIpmi shellVerifyFailEnv).1 = true :=
  c2_apply_accepted rfFullRunEnv false shellVerifyFailEnv (by decide) (by decide)
    (by decide) (by decide) (by decide) (by decide)

/-- C3 counterexample: a Redfish run with escalation enabled whose
post-apply verification read succeeds and shows the protocol disabled
(Confirmed) still issues the escalation POST — escalation is not limited
to the Unconfirmed/VerifyUnavailable outcomes. -/
theorem c3_counterexample :
    (get_ipmi_status rfFullRunEnv.read2).1.1 = true ∧
    truthy ((get_ipmi_status rfFullRunEnv.read2).1.2.1.getD .sNone) = false ∧
    Event.post rbEp1 ∈ (disable_ipmi rfFullRunEnv true).2 := by decide

/-- C3 amended: escalation is governed solely by the `reboot_after` flag —
after a successful apply it is attempted in every verification outcome
(Confirmed included) when the flag is set, and never attempted when the
flag is clear. -/
theorem c3_escalation_follows_flag (env : Env)
    (h1 : (get_ipmi_status env.read1).1.1 = true)
    (h2 : truthy ((get_ipmi_status env.read1).1.2.1.getD .sNone) = true)
    (h3 : applyOk env = true) :
    (∀ e, Event.post e ∉ (disable_ipmi env false).2) ∧
    Event.post rbEp1 ∈ (disable_ipmi env true).2 := by
  constructor
  · intro e hmem
    rw [disable_ipmi_run_eq_false env h1 h2 h3] at hmem
    dsimp only [] at hmem
    simp only [List.mem_append, List.mem_singleton] at hmem
    rcases hmem with ((hm | hm) | hm) | hm
    · rcases get_ipmi_status_mem env.read1 _ hm with he | ⟨e2, he⟩ <;>
        exact Event.noConfusion he
    · rcases applyTrace_mem env _ hm with he | ⟨e2, he⟩ | ⟨e2, he⟩ <;>
        exact Event.noConfusion he
    · exact Event.noConfusion hm
    · rcases get_ipmi_status_mem env.read2 _ hm with he | ⟨e2, he⟩ <;>
        exact Event.noConfusion he
  · rw [disable_ipmi_run_eq_true env h1 h2 h3]
    dsimp only []
    simp only [List.mem_append]
    refine Or.inr ?_
    rw [reboot_idrac]
    dsimp only []
    refine List.mem_cons_of_mem _ ?_
    rw [rebootEndpoints]
    exact rebootLoop_head_mem env.reboot rbEp1 [rbEp2]

theorem c3_escalation_follows_flag_witness :
    (∀ e, Event.post e ∉ (disable_ipmi rfFullRunEnv false).2) ∧
    Event.post rbEp1 ∈ (disable_ipmi rfFullRunEnv true).2 :=
  c3_escalation_follows_flag rfFullRunEnv (by decide) (by decide) (by decide)

/-- C6: once the apply step has been accepted, the outcome of the
escalation cannot downgrade the target: with escalation enabled the run
returns `True` whatever the reboot oracle answers — in particular when
every reboot request fails. -/
theorem c6_escalation_never_downgrades (env : Env)
    (h1 : (get_ipmi_status env.read1).1.1 = true)
    (h2 : truthy ((get_ipmi_status env.read1).1.2.1.getD .sNone) = true)
    (h3 : applyOk env = true) (ro : String → HttpResp) :
    (disable_ipmi { env with reboot := ro } true).1 = true := by
  rw [disable_ipmi_run_eq_true { env with reboot := ro } h1 h2 h3]

theorem c6_escalation_never_downgrades_witness :
    (reboot_idrac (fun _ => HttpResp.resp 500 none "")).1 = false ∧
    (disable_ipmi { rfFullRunEnv with reboot := fun _ => HttpResp.resp 500 none "" }
      true).1 = true :=
  ⟨by decide,
    c6_escalation_never_downgrades rfFullRunEnv (by decide) (by decide) (by decide) _⟩

/-- C9 counterexample: a full Redfish change-verify run (read, apply,
re-read) creates three sessions, not the single per-target session the
claim asserts is reused across all invocations. -/
theorem c9_counterexample :
    (disable_ipmi rfFullRunEnv false).2.count Event.sessionCreate = 3 ∧
    (disable_ipmi rfFullRunEnv false).2.count Event.sessionCreate ≠ 1 := by decide

/-- C9 amended: every helper invocation creates its own fresh session —
a run whose NetworkProtocol apply succeeds creates exactly one session
per helper call: three (status read, apply, verification re-read) without
escalation, four with it. -/
theorem c9_session_per_call (env : Env) (rb : Bool)
    (h1 : (get_ipmi_status env.read1).1.1 = true)
    (h2 : truthy ((get_ipmi_status env.read1).1.2.1.getD .sNone) = true)
    (hnp : (disable_ipmi_networkprotocol env.np).1.1 = true) :
    (disable_ipmi env rb).2.count Event.sessionCreate = if rb then 4 else 3 := by
  have h3 : applyOk env = true := by
    unfold applyOk
    rw [hnp]
    simp
  have hat : applyTrace env = (disable_ipmi_networkprotocol env.np).2 := by
    unfold applyTrace
    rw [hnp]
    simp
  have hs20 : ([Event.sleepTenths 20] : List Event).count Event.sessionCreate = 0 := by
    decide
  cases rb
  · rw [disable_ipmi_run_eq_false env h1 h2 h3]
    dsimp only []
    rw [List.count_append, List.count_append, List.count_append, hat, hs20,
      sessCount_status, sessCount_np, sessCount_status]
    norm_num
  · rw [disable_ipmi_run_eq_true env h1 h2 h3]
    dsimp only []
    rw [List.count_append, List.count_append, List.count_append, List.count_append,
      hat, hs20, sessCount_status, sessCount_np, sessCount_status, sessCount_reboot]
    norm_num

theorem c9_session_per_call_witness :
    (disable_ipmi rfFullRunEnv true).2.count Event.sessionCreate = 4 :=
  c9_session_per_call rfFullRunEnv true (by decide) (by decide) (by decide)

/-- C4 counterexample: a transport-level failure (exception: timeout,
connection refused) on the first apply candidate does not stop the
fallback iteration as a Failure — the second candidate is invoked and the
call even succeeds overall. -/
theorem c4_counterexample :
    c4np npEp1 = HttpResp.exn ∧
    (disable_ipmi_networkprotocol c4np).1.1 = true ∧
    Event.patchReq npEp2 ∈ (disable_ipmi_networkprotocol c4np).2 := by decide

/-- C4 amended: in the apply resolver a 2xx response (Success) or a
non-2xx, non-404 HTTP status (definitive Failure) stops the iteration at
that candidate, while both a 404 and a transport-level exception advance
to the next candidate; in the status resolver a transport-level exception
likewise advances to the next candidate rather than stopping. -/
theorem c4_fallback_advance (envS envF envN envG : String → HttpResp)
    (stS stF : Nat) (bS bF : Option JsonBody) (tS tF : String)
    (hS : envS npEp1 = HttpResp.resp stS bS tS) (hS2 : stS = 200 ∨ stS = 204)
    (hF : envF npEp1 = HttpResp.resp stF bF tF)
    (hF2 : stF ≠ 200) (hF3 : stF ≠ 204) (hF4 : stF ≠ 404)
    (hN : envN npEp1 = HttpResp.exn) (hG : envG npEp1 = HttpResp.exn) :
    ((disable_ipmi_networkprotocol envS).1.1 = true ∧
      (disable_ipmi_networkprotocol envS).2 =
        [Event.sessionCreate, Event.patchReq npEp1]) ∧
    ((disable_ipmi_networkprotocol envF).1.1 = false ∧
      (disable_ipmi_networkprotocol envF).2 =
        [Event.sessionCreate, Event.patchReq npEp1]) ∧
    Event.patchReq npEp2 ∈ (disable_ipmi_networkprotocol envN).2 ∧
    Event.get npEp2 ∈ (get_ipmi_status envG).2 := by
  refine ⟨?_, ?_, ?_, ?_⟩
  · rw [disable_ipmi_networkprotocol, npEndpoints, npLoop, hS]
    dsimp only []
    rcases hS2 with rfl | rfl <;> simp
  · have hb : (stF == 200 || stF == 204) = false := by
      rw [Bool.or_eq_false_iff]
      exact ⟨beq_eq_false_iff_ne.mpr hF2, beq_eq_false_iff_ne.mpr hF3⟩
    have hb4 : (stF == 404) = false := beq_eq_false_iff_ne.mpr hF4
    rw [disable_ipmi_networkprotocol, npEndpoints, npLoop, hF]
    dsimp only []
    rw [hb, hb4]
    simp
  · rw [disable_ipmi_networkprotocol, npEndpoints, npLoop, hN]
    dsimp only []
    exact List.mem_cons_of_mem _
      (List.mem_cons_of_mem _ (npLoop_head_mem envN npEp2 []))
  · rw [get_ipmi_status, statusEndpoints, getStatusLoop, hG]
    dsimp only []
    rw [statusStep]
    dsimp only []
    exact List.mem_cons_of_mem _
      (List.mem_cons_of_mem _ (getStatusLoop_head_mem envG npEp2 [attrEp1]))

theorem c4_fallback_advance_witness :
    (((disable_ipmi_networkprotocol (fun _ => HttpResp.resp 200 none "")).1.1 = true ∧
      (disable_ipmi_networkprotocol (fun _ => HttpResp.resp 200 none "")).2 =
        [Event.sessionCreate, Event.patchReq npEp1]) ∧
    ((disable_ipmi_networkprotocol (fun _ => HttpResp.resp 401 none "")).1.1 = false ∧
      (disable_ipmi_networkprotocol (fun _ => HttpResp.resp 401 none "")).2 =
        [Event.sessionCreate, Event.patchReq npEp1]) ∧
    Event.patchReq npEp2 ∈ (disable_ipmi_networkprotocol c4np).2 ∧
    Event.get npEp2 ∈ (get_ipmi_status (fun _ => HttpResp.exn)).2) :=
  c4_fallback_advance (fun _ => HttpResp.resp 200 none "")
    (fun _ => HttpResp.resp 401 none "") c4np (fun _ => HttpResp.exn)
    200 401 none none "" "" rfl (Or.inl rfl) rfl (by decide) (by decide) (by decide)
    (by decide) rfl

/-- The shell verification classifier holds exactly when one of the two
exact-case markers occurs as a contiguous substring of the output. -/
theorem shellVerifyDisabled_iff (out : String) :
    shellVerifyDisabled out = true ↔
      (∃ p q, out.data = p ++ "Enable=Disabled".data ++ q) ∨
      ∃ p q, out.data = p ++ "Enable=0".data ++ q := by
  rw [shellVerifyDisabled, Bool.or_eq_true, strIn_iff, strIn_iff]

/-- C8 counterexample: the classification is not case-insensitive — an
output carrying the marker in its source-exact case verifies as disabled,
while the same output upper-cased (same letters, different case) does
not. -/
theorem c8_counterexample :
    (shellDisableIpmi c8envExact).1 = true ∧
    (shellDisableIpmi c8envUpper).1 = false ∧
    (c8envExact 2).output.data.map Char.toUpper =
      (c8envUpper 2).output.data.map Char.toUpper := by decide

/-- C8 amended: for a shell run whose three SSH calls succeed, the
per-target result is `True` exactly when the verification output contains
`"Enable=Disabled"` or `"Enable=0"` as a case-sensitive contiguous
substring. -/
theorem c8_case_sensitive_match (env : ShellEnv)
    (h0 : (env 0).ok = true) (h1 : (env 1).ok = true) (h2 : (env 2).ok = true) :
    ((shellDisableIpmi env).1 = true ↔
      (∃ p q, (env 2).output.data = p ++ "Enable=Disabled".data ++ q) ∨
      ∃ p q, (env 2).output.data = p ++ "Enable=0".data ++ q) := by
  rw [← shellVerifyDisabled_iff]
  by_cases hv : shellVerifyDisabled (env 2).output = true
  · simp [shellDisableIpmi, h0, h1, h2, hv]
  · rw [Bool.not_eq_true] at hv
    simp [shellDisableIpmi, h0, h1, h2, hv]

theorem c8_case_sensitive_match_witness :
    ((shellDisableIpmi c8envExact).1 = true ↔
      (∃ p q, (c8envExact 2).output.data = p ++ "Enable=Disabled".data ++ q) ∨
      ∃ p q, (c8envExact 2).output.data = p ++ "Enable=0".data ++ q) :=
  c8_case_sensitive_match c8envExact (by decide) (by decide) (by decide)

theorem statusStep_unextractable (e : String) (b : JsonBody) (t : String)
    (hnp : extractNP b = none) (hattr : findIpmiAttr (b.attributes.getD []) = none) :
    statusStep e (HttpResp.resp 200 (some b) t) = none := by
  rw [statusStep]
  simp [hnp, hattr]

/-- C10: a 200 response whose body yields no extractable IPMI setting is
treated like a missing resource — the loop advances — and when every
candidate is that way `get_ipmi_status` returns
`(False, None, "Could not find IPMI settings endpoint")` after having
issued a GET to every candidate. -/
theorem c10_no_extractable_setting (env : String → HttpResp)
    (h : ∀ e ∈ statusEndpoints, ∃ b t, env e = HttpResp.resp 200 (some b) t ∧
      extractNP b = none ∧ findIpmiAttr (b.attributes.getD []) = none) :
    get_ipmi_status env =
      ((false, none, "Could not find IPMI settings endpoint"),
        Event.sessionCreate :: statusEndpoints.map Event.get) := by
  have hloop : ∀ l : List String, (∀ e ∈ l, statusStep e (env e) = none) →
      getStatusLoop env l =
        ((false, none, "Could not find IPMI settings endpoint"), l.map Event.get) := by
    intro l
    induction l with
    | nil => intro _; rfl
    | cons e rest ih =>
      intro hl
      rw [getStatusLoop, hl e (List.mem_cons_self e rest)]
      dsimp only []
      rw [ih (fun x hx => hl x (List.mem_cons_of_mem e hx))]
      rfl
  have hsteps : ∀ e ∈ statusEndpoints, statusStep e (env e) = none := by
    intro e he
    obtain ⟨b, t, henv, hnp, hattr⟩ := h e he
    rw [henv]
    exact statusStep_unextractable e b t hnp hattr
  rw [get_ipmi_status]
  rw [hloop statusEndpoints hsteps]

theorem c10_no_extractable_setting_witness :
    get_ipmi_status (fun _ => HttpResp.resp 200 (some bodyEmpty) "") =
      ((false, none, "Could not find IPMI settings endpoint"),
        Event.sessionCreate :: statusEndpoints.map Event.get) :=
  c10_no_extractable_setting _ (fun e _ => ⟨bodyEmpty, "", rfl, by decide, by decide⟩)

end IDrac
